import Mathlib

/-!
Verification development for the sprite-atlas pipeline
(`scripts/build_atlas.py` and `scripts/generate_art.py`).

The Python scripts are shallowly embedded: images are rows of RGBA
pixels, 8-bit channels are `Nat`s, fallible operations return `Except`,
and filesystem writes are modelled as an explicit list of write
operations produced only on success (mirroring the scripts, which raise
before performing any write).
-/

/-- One RGBA pixel; channels are 8-bit values (0–255) stored as `Nat`. -/
structure Pixel where
  r : Nat
  g : Nat
  b : Nat
  a : Nat
deriving DecidableEq, Repr

/-- The fully transparent black pixel `(0, 0, 0, 0)`. -/
def transparent : Pixel := ⟨0, 0, 0, 0⟩

/-- An RGBA image as a list of rows of pixels (row-major, top to bottom). -/
structure Img where
  rows : List (List Pixel)
deriving DecidableEq, Repr

/-- Image height (`img.size[1]` in PIL). -/
def Img.height (img : Img) : Nat := img.rows.length

/-- Image width (`img.size[0]` in PIL); the length of the first row. -/
def Img.width (img : Img) : Nat := (img.rows.headD []).length

/-- Pixel access `pixels[x, y]`; out-of-range access yields `transparent`
(the scripts only access in-range pixels). -/
def Img.pix (img : Img) (x y : Nat) : Pixel :=
  (img.rows.getD y []).getD x transparent

/-- A `w × h` image entirely filled with one pixel value; `Image.new` in PIL. -/
def blankImage (w h : Nat) (p : Pixel) : Img :=
  ⟨List.replicate h (List.replicate w p)⟩

/-! ### CPython semantics used by `remove_background`

`remove_background` picks the background colour with
`max(set(corners), key=corners.count)`.  `max` returns the first element
of the iterable attaining the maximal key, so on ties the result is
decided by the iteration order of the Python `set`, which CPython
determines by open-addressing hash-table placement.  The following
definitions embed that behaviour exactly for tuples of small
non-negative ints (CPython ≥ 3.8, 64-bit build, verified against
CPython 3.11): `hash(int n) = n` for small non-negative `n`, tuples are
hashed with the xxHash-style `tuplehash`, and a freshly built set of at
most four distinct elements keeps its initial 8-slot table. -/

/-- The constant `2^64`, the modulus of CPython's `Py_uhash_t` arithmetic. -/
def U64 : Nat := 18446744073709551616

/-- Constant `_PyHASH_XXPRIME_1` from CPython's `tupleobject.c`. -/
def xxPrime1 : Nat := 11400714785074694791

/-- Constant `_PyHASH_XXPRIME_2` from CPython's `tupleobject.c`. -/
def xxPrime2 : Nat := 14029467366897019727

/-- Constant `_PyHASH_XXPRIME_5` from CPython's `tupleobject.c`. -/
def xxPrime5 : Nat := 2870177450012600261

/-- CPython's `_PyHASH_XXROTATE`: rotate a 64-bit value left by 31 bits. -/
def rotl31 (x : Nat) : Nat := ((x <<< 31) ||| (x >>> 33)) % U64

/-- One accumulation step of CPython's `tuplehash`. -/
def tupleHashStep (acc lane : Nat) : Nat :=
  (rotl31 ((acc + lane * xxPrime2) % U64) * xxPrime1) % U64

/-- CPython's `tuplehash` on a list of item hashes (64-bit build). -/
def tupleHash (xs : List Nat) : Nat :=
  let acc := xs.foldl tupleHashStep xxPrime5
  let acc := (acc + Nat.xor xs.length (Nat.xor xxPrime5 3527539)) % U64
  if acc = U64 - 1 then 1546275796 else acc

/-- Python's `hash((r, g, b, a))` for a pixel: channel ints hash to themselves. -/
def pixelHash (p : Pixel) : Nat := tupleHash [p.r, p.g, p.b, p.a]

/-- A CPython set hash table over pixels: a fixed number of slots, each
empty (`none`) or holding one element. -/
abbrev SetTable : Type := List (Option Pixel)

/-- Probe for the slot where CPython's `set_add_entry` stores a new
element: start at `hash & mask`, and while the slot is occupied iterate
`perturb >>= 5; i = (i*5 + 1 + perturb) & mask` (the table mask is 7, so
the `LINEAR_PROBES` fast path never triggers).  Returns `some i` only
for an in-range empty slot. -/
def probeFind (t : SetTable) (i perturb : Nat) : Nat → Option Nat
  | 0 => none
  | fuel + 1 =>
    match t.getD i (some transparent) with
    | none => some i
    | some _ =>
      let perturb2 := perturb >>> 5
      probeFind t ((i * 5 + 1 + perturb2) % 8) perturb2 fuel

/-- Index of the first empty slot of a table, if any.  In CPython the
probe sequence itself always reaches an empty slot of a non-full table;
this scan is a fallback used only to make `setInsert` total. -/
def firstEmpty : SetTable → Option Nat
  | [] => none
  | none :: _ => some 0
  | some _ :: t => (firstEmpty t).map (· + 1)

/-- Add one pixel to the set table (CPython `set_add_entry`): nothing
happens if the element is already present, otherwise it is stored in the
first empty slot of its probe sequence.  64 probe steps always suffice
(after 13 steps the perturbation is exhausted and the affine step cycles
through all 8 slots). -/
def setInsert (t : SetTable) (p : Pixel) : SetTable :=
  if some p ∈ t then t
  else
    let h := pixelHash p
    match probeFind t (h % 8) h 64 with
    | some i => t.set i (some p)
    | none =>
      match firstEmpty t with
      | some i => t.set i (some p)
      | none => t

/-- The empty 8-slot table of a freshly created CPython set. -/
def emptyTable : SetTable := List.replicate 8 none

/-- The elements of `set(ps)` in CPython iteration order (table slots in
increasing order). -/
def pySetList (ps : List Pixel) : List Pixel :=
  (ps.foldl setInsert emptyTable).filterMap id

/-- Python's `corners.count(p)`: the number of occurrences of `p` in the corner list. -/
def countIn (l : List Pixel) (p : Pixel) : Nat := (l.filter (· == p)).length

/-- Python's `max(candidates, key=lambda q: cs.count(q))`: the first
candidate attaining the maximal count (strictly greater counts replace
the current best). -/
def pyMaxByCount (cs : List Pixel) : List Pixel → Pixel
  | [] => transparent
  | c :: rest =>
    rest.foldl (fun best q => if countIn cs best < countIn cs q then q else best) c

/-- The four corner pixels, in source order
`[pixels[0,0], pixels[w-1,0], pixels[0,h-1], pixels[w-1,h-1]]`. -/
def corners (img : Img) : List Pixel :=
  [img.pix 0 0, img.pix (img.width - 1) 0,
   img.pix 0 (img.height - 1), img.pix (img.width - 1) (img.height - 1)]

/-- The background colour `bg_color = max(set(corners), key=corners.count)[:3]`: the chosen
background colour truncated to its RGB channels. -/
def bgColor (img : Img) : Nat × Nat × Nat :=
  let cs := corners img
  let m := pyMaxByCount cs (pySetList cs)
  (m.r, m.g, m.b)

/-- The per-pixel match test of `remove_background`: each of R, G, B is
strictly within `tolerance` of the background channel (`abs(c - bg) <
tolerance`, independently per channel; alpha is ignored). -/
def matchesBG (p : Pixel) (bg : Nat × Nat × Nat) (tolerance : Nat) : Bool :=
  (((p.r : Int) - (bg.1 : Int)).natAbs < tolerance) &&
  (((p.g : Int) - (bg.2.1 : Int)).natAbs < tolerance) &&
  (((p.b : Int) - (bg.2.2 : Int)).natAbs < tolerance)

/-- Apply a pixel function to every pixel of an image. -/
def mapImg (f : Pixel → Pixel) (img : Img) : Img :=
  ⟨img.rows.map (List.map f)⟩

/-- Function `remove_background(img, tolerance)` from `scripts/generate_art.py`:
sample the four corners, take the most frequent corner colour (via
`max(set(corners), key=corners.count)`) truncated to RGB, and rewrite
every pixel within per-channel tolerance of it to `(0, 0, 0, 0)`.
The input is already RGBA (both call sites convert first, and
`convert("RGBA")` is then the pixelwise identity). -/
def remove_background (img : Img) (tolerance : Nat) : Img :=
  let bg := bgColor img
  mapImg (fun p => if matchesBG p bg tolerance then transparent else p) img

/-- The script's default tolerance of 30. -/
def remove_background_default (img : Img) : Img := remove_background img 30

/-! ### Tile normalization (`scripts/generate_art.py`) -/

/-- The sprite ids that skip cropping and background removal
(`TILE_SPRITES = {"block"}`). -/
def TILE_SPRITES : List String := ["block"]

/-- The crop side `crop_size = int(min(w, h) * 0.45)`.  Embedded as exact rational
arithmetic `min w h * 45 / 100`; this agrees with the script's IEEE
double computation for every dimension below `10^14` (the relative
error of the double nearest 0.45 is `2.5·10^-17`, far too small to move
the product across an integer whose distance from `9n/20` is at least
`1/20`, and exact multiples of `1/1` round down). -/
def cropSize (w h : Nat) : Nat := min w h * 45 / 100

/-- A `w × h` image whose pixel at `(x, y)` is `f x y`. -/
def genImg (w h : Nat) (f : Nat → Nat → Pixel) : Img :=
  ⟨(List.range h).map fun y => (List.range w).map fun x => f x y⟩

/-- PIL's `img.crop((left, top, left + w, top + h))`: the `w × h` subimage
whose top-left corner is `(left, top)`. -/
def cropImg (img : Img) (left top w h : Nat) : Img :=
  genImg w h fun x y => img.pix (left + x) (top + y)

/-- The center-crop step of `resize_image`: crop the centered square of
side `int(min(w, h) * 0.45)`, with `left = (w - c) // 2` and
`top = (h - c) // 2`. -/
def centerCrop (img : Img) : Img :=
  let w := img.width
  let h := img.height
  let c := cropSize w h
  cropImg img ((w - c) / 2) ((h - c) / 2) c c

/-- Nearest-neighbor resample to `tw × th` (models PIL's
`img.resize(target_size, Image.NEAREST)`, which samples the source at
the back-projected centre of each output pixel). -/
def resizeNearest (img : Img) (tw th : Nat) : Img :=
  genImg tw th fun x y =>
    img.pix ((2 * x + 1) * img.width / (2 * tw))
            ((2 * y + 1) * img.height / (2 * th))

/-- Function `resize_image` from `scripts/generate_art.py`, at the image level
(PNG encoding/decoding at its boundary is out of scope): center crop
unless the sprite is a tile sprite or `center_crop` is false, remove the
background unless the sprite is a tile sprite, then nearest-neighbor
resize to the target size. -/
def resize_image (img : Img) (targetW targetH : Nat) (sprite_id : String)
    (center_crop : Bool) : Img :=
  let img1 := if center_crop && !(TILE_SPRITES.contains sprite_id) then centerCrop img else img
  let img2 := if !(TILE_SPRITES.contains sprite_id) then remove_background img1 30 else img1
  resizeNearest img2 targetW targetH

/-! ### Readiness gate (`is_production_ready`) -/

/-- A JSON value (the scripts only ever read ints and the shapes below;
floats do not occur in any marker the pipeline writes). -/
inductive JsonValue where
  | null
  | bool (b : Bool)
  | num (n : Int)
  | str (s : String)
  | arr (xs : List JsonValue)
  | obj (kvs : List (String × JsonValue))

/-- Python truthiness (`bool(v)`) of a JSON value. -/
def truthy : JsonValue → Bool
  | .null => false
  | .bool b => b
  | .num n => !(n == 0)
  | .str s => !(s == "")
  | .arr xs => !xs.isEmpty
  | .obj kvs => !kvs.isEmpty

/-- Python's `payload.get(k)` on a parsed JSON object (later duplicate keys win,
as in `json.load`). -/
def dictGet (kvs : List (String × JsonValue)) (k : String) : Option JsonValue :=
  kvs.foldl (fun acc kv => if kv.1 == k then some kv.2 else acc) none

/-- The state of the readiness-marker file as `is_production_ready`
observes it: absent, present but not parseable as JSON, or parsed.  The
marker's data model is a JSON object, so the parsed case carries the
object's key/value pairs (a non-object top level would make the script
raise `AttributeError` on `payload.get`, which no caller produces). -/
inductive MarkerFile where
  | absent
  | unparsable
  | parsed (kvs : List (String × JsonValue))

/-- Function `is_production_ready` from `scripts/generate_art.py`: `False` when
the marker file does not exist or fails to parse, otherwise
`bool(payload.get("production"))`. -/
def is_production_ready : MarkerFile → Bool
  | .absent => false
  | .unparsable => false
  | .parsed kvs =>
    match dictGet kvs "production" with
    | none => false
    | some v => truthy v

/-! ### Atlas assembly (`scripts/build_atlas.py`) -/

/-- The `sheet` section of the layout manifest. -/
structure SheetCfg where
  width : Nat
  height : Nat
  scale : Nat
  cell : Nat
deriving DecidableEq, Repr

/-- One entry of the manifest's `sprites` list. -/
structure SpriteSpec where
  id : String
  row : Nat
  col : Nat
  w : Nat
  h : Nat
deriving DecidableEq, Repr

/-- The layout manifest. -/
structure Manifest where
  sheet : SheetCfg
  sprites : List SpriteSpec
deriving DecidableEq, Repr

/-- One entry of the emitted atlas index. -/
structure AtlasEntry where
  x : Nat
  y : Nat
  w : Nat
  h : Nat
deriving DecidableEq, Repr

/-- The fatal errors of the assembler.  `missingTile` is the
`FileNotFoundError("Missing sprite tile: ...")` of tile mode
(`MissingTileError` in the design taxonomy), `sizeMismatch` the
`ValueError(f"... expected ..., got ...")` of tile mode
(`SizeMismatchError`), and `dimensionMismatch` the
`ValueError("Expected ...x... input, got ...")` of sheet mode
(`DimensionMismatchError`). -/
inductive BuildError where
  | missingTile (id : String)
  | sizeMismatch (id : String) (expected got : Nat × Nat)
  | dimensionMismatch (expected got : Nat × Nat)
deriving DecidableEq, Repr

/-- PIL's "over" alpha compositing of a source pixel onto a destination
pixel (`Image.alpha_composite`); with a fully transparent destination it
returns the source, and a fully transparent source leaves the
destination. -/
def blendOver (src dst : Pixel) : Pixel :=
  let outA255 := src.a * 255 + dst.a * (255 - src.a)
  if outA255 = 0 then transparent
  else
    ⟨(src.r * src.a * 255 + dst.r * dst.a * (255 - src.a) + outA255 / 2) / outA255,
     (src.g * src.a * 255 + dst.g * dst.a * (255 - src.a) + outA255 / 2) / outA255,
     (src.b * src.a * 255 + dst.b * dst.a * (255 - src.a) + outA255 / 2) / outA255,
     (outA255 + 127) / 255⟩

/-- PIL's `canvas.alpha_composite(tile, dest=(dx, dy))`: alpha-composite the
tile over the canvas with its top-left corner at `(dx, dy)`; canvas
pixels outside the tile's rectangle are unchanged. -/
def alphaCompositeAt (canvas tile : Img) (dx dy : Nat) : Img :=
  genImg canvas.width canvas.height fun x y =>
    if dx ≤ x ∧ x < dx + tile.width ∧ dy ≤ y ∧ y < dy + tile.height then
      blendOver (tile.pix (x - dx) (y - dy)) (canvas.pix x y)
    else canvas.pix x y

/-- Assignment `atlas[sprite_id] = entry` on a Python dict kept as an association
list: an existing key keeps its position and gets the new value, a new
key is appended. -/
def dictInsert : List (String × AtlasEntry) → String → AtlasEntry →
    List (String × AtlasEntry)
  | [], k, v => [(k, v)]
  | kv :: rest, k, v =>
    if kv.1 = k then (k, v) :: rest else kv :: dictInsert rest k v

/-- The per-sprite loop of `build_atlas_from_tiles`: in manifest order,
require the sprite's tile to exist and to measure exactly `w × h`,
composite it onto the canvas at `(col * cell, row * cell)` and record
the index entry.  `tiles` models the tile directory as a partial map
from sprite id to the decoded RGBA image of `{id}.png`. -/
def buildTilesLoop (tiles : String → Option Img) (cell : Nat) :
    List SpriteSpec → Img → List (String × AtlasEntry) →
    Except BuildError (Img × List (String × AtlasEntry))
  | [], canvas, atlas => .ok (canvas, atlas)
  | s :: rest, canvas, atlas =>
    match tiles s.id with
    | none => .error (.missingTile s.id)
    | some tile =>
      if (tile.width, tile.height) = (s.w, s.h) then
        let x := s.col * cell
        let y := s.row * cell
        buildTilesLoop tiles cell rest (alphaCompositeAt canvas tile x y)
          (dictInsert atlas s.id ⟨x, y, s.w, s.h⟩)
      else .error (.sizeMismatch s.id (s.w, s.h) (tile.width, tile.height))

/-- Function `build_atlas_from_tiles` up to (but not including) the filesystem
writes: allocate a blank transparent `(width//scale) × (height//scale)`
canvas, set `cell = sheet.cell // scale`, and run the sprite loop. -/
def buildAtlasFromTiles (tiles : String → Option Img) (m : Manifest) :
    Except BuildError (Img × List (String × AtlasEntry)) :=
  let scale := m.sheet.scale
  let cell := m.sheet.cell / scale
  buildTilesLoop tiles cell m.sprites
    (blankImage (m.sheet.width / scale) (m.sheet.height / scale) transparent) []

/-- Insert an index entry into an id-sorted list. -/
def insertByKey (p : String × AtlasEntry) : List (String × AtlasEntry) →
    List (String × AtlasEntry)
  | [] => [p]
  | q :: rest => if p.1 < q.1 then p :: q :: rest else q :: insertByKey p rest

/-- The atlas index sorted by sprite id, as `json.dump(..., sort_keys=True)`
emits it. -/
def sortByKey (l : List (String × AtlasEntry)) : List (String × AtlasEntry) :=
  l.foldr insertByKey []

/-- One filesystem write performed by the builder. -/
inductive WriteOp where
  | imageFile (img : Img)
  | indexFile (index : List (String × AtlasEntry))
  | markerFile (production : Bool) (source : String)
deriving DecidableEq, Repr

/-- Function `build_atlas_from_tiles` including its writes: the atlas image, the
id-sorted index, and (when `--mark-production` is set) the readiness
marker with `production: true` are written only after the whole loop has
succeeded; any raised error aborts before the first write. -/
def buildAtlasFromTilesWrites (tiles : String → Option Img) (m : Manifest)
    (markProduction : Bool) (source : String) : Except BuildError (List WriteOp) :=
  match buildAtlasFromTiles tiles m with
  | .error e => .error e
  | .ok (img, atlas) =>
    .ok ([.imageFile img, .indexFile (sortByKey atlas)] ++
      (if markProduction then [.markerFile true source] else []))

/-- The per-sprite index loop of `build_atlas_from_sheet` (sheet mode
performs no per-sprite validation). -/
def sheetLoop (cell : Nat) : List SpriteSpec → List (String × AtlasEntry) →
    List (String × AtlasEntry)
  | [], atlas => atlas
  | s :: rest, atlas =>
    sheetLoop cell rest (dictInsert atlas s.id ⟨s.col * cell, s.row * cell, s.w, s.h⟩)

/-- Function `build_atlas_from_sheet` up to the filesystem writes: require the
sheet image to measure exactly `sheet.width × sheet.height`, downscale
it once by nearest-neighbor to `(width//scale, height//scale)`, and
compute the index from the manifest alone. -/
def buildAtlasFromSheet (sheetImg : Img) (m : Manifest) :
    Except BuildError (Img × List (String × AtlasEntry)) :=
  if (sheetImg.width, sheetImg.height) = (m.sheet.width, m.sheet.height) then
    let scale := m.sheet.scale
    let downscaled := resizeNearest sheetImg (m.sheet.width / scale) (m.sheet.height / scale)
    .ok (downscaled, sheetLoop (m.sheet.cell / scale) m.sprites [])
  else
    .error (.dimensionMismatch (m.sheet.width, m.sheet.height)
      (sheetImg.width, sheetImg.height))

/-- Function `build_atlas_from_sheet` including its writes, which happen only
after a successful build. -/
def buildAtlasFromSheetWrites (sheetImg : Img) (m : Manifest)
    (markProduction : Bool) (source : String) : Except BuildError (List WriteOp) :=
  match buildAtlasFromSheet sheetImg m with
  | .error e => .error e
  | .ok (img, atlas) =>
    .ok ([.imageFile img, .indexFile (sortByKey atlas)] ++
      (if markProduction then [.markerFile true source] else []))

/-! ### Basic image lemmas -/

theorem genImg_height (w h : Nat) (f : Nat → Nat → Pixel) :
    (genImg w h f).height = h := by
  simp [genImg, Img.height]

theorem genImg_width (w h : Nat) (f : Nat → Nat → Pixel) (hh : h ≠ 0) :
    (genImg w h f).width = w := by
  cases h with
  | zero => exact absurd rfl hh
  | succ n =>
    simp [genImg, Img.width, List.range_succ_eq_map]

theorem getD_map_range {α : Type} (g : Nat → α) (n i : Nat) (d : α) :
    ((List.range n).map g).getD i d = if i < n then g i else d := by
  by_cases h : i < n
  · simp [List.getD, List.getElem?_map, List.getElem?_range, h]
  · have hn : (List.range n)[i]? = none :=
      List.getElem?_eq_none (by simpa using Nat.le_of_not_lt h)
    simp [List.getD, List.getElem?_map, hn, h]

theorem genImg_pix (w h : Nat) (f : Nat → Nat → Pixel) (x y : Nat)
    (hx : x < w) (hy : y < h) : (genImg w h f).pix x y = f x y := by
  simp [genImg, Img.pix, getD_map_range, hx, hy]

theorem getD_map_pixel (f : Pixel → Pixel) (hf : f transparent = transparent) :
    ∀ (r : List Pixel) (x : Nat), (r.map f).getD x transparent = f (r.getD x transparent)
  | [], x => by simp [hf]
  | p :: r, 0 => rfl
  | p :: r, x + 1 => getD_map_pixel f hf r x

theorem pix_mapImg (f : Pixel → Pixel) (hf : f transparent = transparent)
    (img : Img) (x y : Nat) : (mapImg f img).pix x y = f (img.pix x y) := by
  rcases img with ⟨rows⟩
  induction rows generalizing y with
  | nil => simp [mapImg, Img.pix, hf]
  | cons r rs ih =>
    cases y with
    | zero =>
      simpa [mapImg, Img.pix] using getD_map_pixel f hf r x
    | succ n =>
      simpa [mapImg, Img.pix] using ih n

theorem mapImg_height (f : Pixel → Pixel) (img : Img) :
    (mapImg f img).height = img.height := by
  simp [mapImg, Img.height]

theorem mapImg_width (f : Pixel → Pixel) (img : Img) :
    (mapImg f img).width = img.width := by
  rcases img with ⟨rows⟩
  cases rows <;> simp [mapImg, Img.width]

theorem pix_remove_background (img : Img) (tol x y : Nat) :
    (remove_background img tol).pix x y =
      if matchesBG (img.pix x y) (bgColor img) tol then transparent
      else img.pix x y := by
  have hf : (fun p => if matchesBG p (bgColor img) tol then transparent else p)
      transparent = transparent := by
    by_cases h : matchesBG transparent (bgColor img) tol <;> simp [h]
  simpa [remove_background] using
    pix_mapImg (fun p => if matchesBG p (bgColor img) tol then transparent else p)
      hf img x y

theorem remove_background_height (img : Img) (tol : Nat) :
    (remove_background img tol).height = img.height :=
  mapImg_height _ img

theorem remove_background_width (img : Img) (tol : Nat) :
    (remove_background img tol).width = img.width :=
  mapImg_width _ img

/-! ### Background colour for uniform corners -/

theorem probeFind_succ_found (t : SetTable) (i pert fuel : Nat)
    (hd : t.getD i (some transparent) = none) :
    probeFind t i pert (fuel + 1) = some i := by
  simp only [probeFind]
  rw [hd]

theorem getD_emptyTable (i : Nat) (hi : i < 8) :
    emptyTable.getD i (some transparent) = none := by
  interval_cases i <;> rfl

theorem setInsert_of_mem (t : SetTable) (p : Pixel) (h : some p ∈ t) :
    setInsert t p = t := by
  simp [setInsert, h]

theorem setInsert_emptyTable (p : Pixel) :
    setInsert emptyTable p = emptyTable.set (pixelHash p % 8) (some p) := by
  have hmem : ¬ some p ∈ emptyTable := by
    simp [emptyTable, List.mem_replicate]
  have hi : pixelHash p % 8 < 8 := Nat.mod_lt _ (by omega)
  have hprobe : probeFind emptyTable (pixelHash p % 8) (pixelHash p) 64
      = some (pixelHash p % 8) :=
    probeFind_succ_found emptyTable _ _ 63 (getD_emptyTable _ hi)
  simp [setInsert, hmem, hprobe]

theorem mem_set_self {α : Type} :
    ∀ (l : List α) (k : Nat) (v : α), k < l.length → v ∈ l.set k v
  | [], k, v, h => absurd h (by simp)
  | a :: l, 0, v, _ => List.mem_cons_self _ _
  | a :: l, k + 1, v, h =>
    List.mem_cons_of_mem _ (mem_set_self l k v (by simpa using h))

theorem filterMap_replicate_none :
    ∀ n : Nat, (List.replicate n (none : Option Pixel)).filterMap id = []
  | 0 => rfl
  | n + 1 => by simp [List.replicate_succ]

theorem filterMap_set_replicate : ∀ (n k : Nat) (p : Pixel), k < n →
    ((List.replicate n (none : Option Pixel)).set k (some p)).filterMap id = [p]
  | 0, k, p, h => absurd h (by omega)
  | n + 1, 0, p, _ => by
    simp [List.replicate_succ, filterMap_replicate_none n]
  | n + 1, k + 1, p, h => by
    simpa [List.replicate_succ] using filterMap_set_replicate n k p (by omega)

theorem pySetList_four_const (c : Pixel) : pySetList [c, c, c, c] = [c] := by
  have hk : pixelHash c % 8 < 8 := Nat.mod_lt _ (by omega)
  have hmem : some c ∈ emptyTable.set (pixelHash c % 8) (some c) :=
    mem_set_self _ _ _ (by simpa [emptyTable] using hk)
  have h2 : setInsert (emptyTable.set (pixelHash c % 8) (some c)) c
      = emptyTable.set (pixelHash c % 8) (some c) := setInsert_of_mem _ _ hmem
  show ([c, c, c, c].foldl setInsert emptyTable).filterMap id = [c]
  rw [List.foldl_cons, setInsert_emptyTable, List.foldl_cons, h2,
    List.foldl_cons, h2, List.foldl_cons, h2, List.foldl_nil]
  exact filterMap_set_replicate 8 _ c hk

theorem pyMaxByCount_single (cs : List Pixel) (c : Pixel) :
    pyMaxByCount cs [c] = c := rfl

theorem bgColor_const_corners (img : Img) (c : Pixel)
    (h : corners img = [c, c, c, c]) : bgColor img = (c.r, c.g, c.b) := by
  simp [bgColor, h, pySetList_four_const, pyMaxByCount_single]

theorem matchesBG_ten_iff (p : Pixel) :
    matchesBG p (10, 10, 10) 30 = true ↔ p.r < 40 ∧ p.g < 40 ∧ p.b < 40 := by
  simp only [matchesBG, Bool.and_eq_true, decide_eq_true_eq]
  omega

theorem matchesBG_zero_iff (p : Pixel) :
    matchesBG p (0, 0, 0) 30 = true ↔ p.r < 30 ∧ p.g < 30 ∧ p.b < 30 := by
  simp only [matchesBG, Bool.and_eq_true, decide_eq_true_eq]
  omega

theorem map_eq_self_of {α : Type} (f : α → α) :
    ∀ l : List α, (∀ a ∈ l, f a = a) → l.map f = l
  | [], _ => rfl
  | a :: l, h => by
    rw [List.map_cons, h a (List.mem_cons_self a l),
      map_eq_self_of f l (fun b hb => h b (List.mem_cons_of_mem a hb))]

/-- C10: background removal preserves the image's dimensions, and every
output pixel is either exactly the corresponding input pixel or exactly
the fully transparent pixel `(0, 0, 0, 0)`. -/
theorem c10_remove_background_pixel_invariant :
    ∀ (img : Img) (tol : Nat),
      ((remove_background img tol).width = img.width ∧
       (remove_background img tol).height = img.height) ∧
      ∀ x y : Nat,
        (remove_background img tol).pix x y = img.pix x y ∨
        (remove_background img tol).pix x y = transparent := by
  intro img tol
  refine ⟨⟨remove_background_width img tol, remove_background_height img tol⟩, ?_⟩
  intro x y
  rw [pix_remove_background]
  by_cases h : matchesBG (img.pix x y) (bgColor img) tol <;> simp [h]

/-- The 3×1 image `[(10,10,10,255), (40,10,10,255), (10,10,10,255)]`:
all four corner samples are `(10,10,10,255)`. -/
def c2Img : Img := ⟨[[⟨10, 10, 10, 255⟩, ⟨40, 10, 10, 255⟩, ⟨10, 10, 10, 255⟩]]⟩

/-- C2 counterexample: with background `(10,10,10)` and tolerance 30, the
pixel `(40,10,10,255)` has all three channels in `0–40` inclusive, yet
`remove_background` leaves it unchanged and opaque (the script's test is
the strict `abs(c - bg) < 30`, and `|40 - 10| = 30` is not `< 30`), so
the claimed inclusive `0–40` clearing range is wrong. -/
theorem c2_counterexample :
    bgColor c2Img = (10, 10, 10) ∧
    c2Img.pix 1 0 = ⟨40, 10, 10, 255⟩ ∧
    (remove_background c2Img 30).pix 1 0 = ⟨40, 10, 10, 255⟩ ∧
    (remove_background c2Img 30).pix 1 0 ≠ transparent := by decide

/-- C2 (amended): with corner colour `(10,10,10)` and tolerance 30,
exactly the pixels whose R, G and B channels are each in `0–39`
(strictly within the tolerance) are rewritten to `(0,0,0,0)`, and every
other pixel — in particular one coloured `(10,100,10)` — is left
unchanged. -/
theorem c2_tolerance_clearing (img : Img) (c : Pixel)
    (hc : corners img = [c, c, c, c])
    (hr : c.r = 10) (hg : c.g = 10) (hb : c.b = 10) :
    ∀ x y : Nat,
      (remove_background img 30).pix x y =
        if (img.pix x y).r < 40 ∧ (img.pix x y).g < 40 ∧ (img.pix x y).b < 40
        then transparent else img.pix x y := by
  intro x y
  rw [pix_remove_background]
  have hbg : bgColor img = (10, 10, 10) := by
    rw [bgColor_const_corners img c hc, hr, hg, hb]
  rw [hbg]
  by_cases h : (img.pix x y).r < 40 ∧ (img.pix x y).g < 40 ∧ (img.pix x y).b < 40
  · rw [if_pos ((matchesBG_ten_iff _).2 h), if_pos h]
  · rw [if_neg (fun hh => h ((matchesBG_ten_iff _).1 hh)), if_neg h]

/-- A 3×1 test image with `(10,10,10,255)` corners, a matching pixel and
no others. -/
theorem c2_tolerance_clearing_witness :
    corners c2Img = [⟨10, 10, 10, 255⟩, ⟨10, 10, 10, 255⟩,
      ⟨10, 10, 10, 255⟩, ⟨10, 10, 10, 255⟩] ∧
    ∀ x y : Nat,
      (remove_background c2Img 30).pix x y =
        if (c2Img.pix x y).r < 40 ∧ (c2Img.pix x y).g < 40 ∧ (c2Img.pix x y).b < 40
        then transparent else c2Img.pix x y :=
  ⟨by decide, c2_tolerance_clearing c2Img ⟨10, 10, 10, 255⟩ (by decide) rfl rfl rfl⟩

/-- The 3×1 image `[(0,0,0,0), (10,10,10,255), (0,0,0,0)]`: all four
corner samples are fully transparent. -/
def c4Img : Img := ⟨[[transparent, ⟨10, 10, 10, 255⟩, transparent]]⟩

/-- C4 counterexample: an image whose four corner samples are fully
transparent on which background removal is not the identity — the
corners' RGB is `(0,0,0)`, so the opaque near-black pixel
`(10,10,10,255)` matches the background within tolerance 30 and is
cleared. -/
theorem c4_counterexample :
    corners c4Img = [transparent, transparent, transparent, transparent] ∧
    remove_background c4Img 30 ≠ c4Img ∧
    (remove_background c4Img 30).pix 1 0 ≠ c4Img.pix 1 0 := by decide

/-- C4 (amended): background removal is the identity on an image whose
four corner samples are fully transparent `(0,0,0,0)` provided every
pixel matching the resulting background `(0,0,0)` within tolerance
(all of R, G, B below 30) is already exactly `(0,0,0,0)`; transparent
corners alone do not suffice. -/
theorem c4_noop_on_cleared (img : Img)
    (hc : corners img = [transparent, transparent, transparent, transparent])
    (hclear : ∀ row ∈ img.rows, ∀ p ∈ row,
      p.r < 30 → p.g < 30 → p.b < 30 → p = transparent) :
    remove_background img 30 = img := by
  have hbg : bgColor img = (0, 0, 0) := bgColor_const_corners img transparent hc
  show mapImg (fun p => if matchesBG p (bgColor img) 30 then transparent else p) img = img
  rw [hbg]
  rcases img with ⟨rows⟩
  simp only [mapImg, Img.mk.injEq]
  rw [map_eq_self_of]
  intro row hrow
  rw [map_eq_self_of]
  intro p hp
  by_cases h : matchesBG p (0, 0, 0) 30
  · obtain ⟨h1, h2, h3⟩ := (matchesBG_zero_iff p).1 h
    rw [if_pos h, hclear row hrow p hp h1 h2 h3]
  · rw [if_neg h]

/-- A 3×1 image with transparent corners whose only matching pixel is
already `(0,0,0,0)`. -/
theorem c4_noop_on_cleared_witness :
    corners ⟨[[transparent, ⟨200, 200, 200, 255⟩, transparent]]⟩ =
      [transparent, transparent, transparent, transparent] ∧
    remove_background ⟨[[transparent, ⟨200, 200, 200, 255⟩, transparent]]⟩ 30 =
      ⟨[[transparent, ⟨200, 200, 200, 255⟩, transparent]]⟩ :=
  ⟨by decide, c4_noop_on_cleared _ (by decide) (by decide)⟩

/-! ### Set-table lemmas for the general background-colour theorem -/

/-- Number of occupied slots of a set table. -/
def occ (t : SetTable) : Nat := (t.filterMap id).length

theorem getD_none_lt : ∀ (t : SetTable) (j : Nat),
    t.getD j (some transparent) = none → j < t.length
  | [], _, h => Option.noConfusion h
  | _ :: _, 0, _ => by simp
  | _ :: t, j + 1, h => by
    simpa using Nat.succ_lt_succ (getD_none_lt t j h)

theorem probeFind_sound (t : SetTable) : ∀ (fuel i pert j : Nat),
    probeFind t i pert fuel = some j → t.getD j (some transparent) = none
  | 0, i, pert, j, h => by cases h
  | fuel + 1, i, pert, j, h => by
    revert h
    simp only [probeFind]
    cases hd : t.getD i (some transparent) with
    | none =>
      intro h
      obtain rfl := Option.some.inj h
      exact hd
    | some q =>
      intro h
      exact probeFind_sound t fuel _ _ j h

theorem firstEmpty_sound : ∀ (t : SetTable) (j : Nat),
    firstEmpty t = some j → t.getD j (some transparent) = none
  | [], j, h => by cases h
  | none :: t, j, h => by
    obtain rfl := Option.some.inj h
    rfl
  | some q :: t, j, h => by
    simp only [firstEmpty, Option.map_eq_some'] at h
    obtain ⟨k, hk, rfl⟩ := h
    simpa [List.getD] using firstEmpty_sound t k hk

theorem firstEmpty_none_full : ∀ t : SetTable, firstEmpty t = none → occ t = t.length
  | [], _ => rfl
  | none :: t, h => by cases h
  | some q :: t, h => by
    simp only [firstEmpty, Option.map_eq_none'] at h
    simp only [occ, List.filterMap_cons, id, List.length_cons, List.length]
    rw [← occ, firstEmpty_none_full t h]

theorem mem_set_none_slot : ∀ (t : SetTable) (j : Nat) (v : Option Pixel) (q : Pixel),
    some q ∈ t → t.getD j (some transparent) = none → some q ∈ t.set j v
  | [], _, _, _, hq, _ => absurd hq (by simp)
  | a :: t, 0, v, q, hq, hj => by
    have ha : a = none := by simpa [List.getD] using hj
    subst ha
    rcases List.mem_cons.1 hq with h | h
    · exact Option.noConfusion h
    · exact List.mem_cons_of_mem _ h
  | a :: t, j + 1, v, q, hq, hj => by
    rcases List.mem_cons.1 hq with h | h
    · exact h ▸ List.mem_cons_self _ _
    · exact List.mem_cons_of_mem _ (mem_set_none_slot t j v q h hj)

/-- The three possible outcomes of `setInsert`: the element was already
present, it was stored in an empty slot, or the table was full (the last
never happens below 8 elements). -/
theorem setInsert_spec (t : SetTable) (p : Pixel) :
    (some p ∈ t ∧ setInsert t p = t) ∨
    (∃ j, t.getD j (some transparent) = none ∧ setInsert t p = t.set j (some p)) ∨
    (firstEmpty t = none ∧ setInsert t p = t) := by
  by_cases hmem : some p ∈ t
  · exact Or.inl ⟨hmem, setInsert_of_mem t p hmem⟩
  · rw [setInsert]
    simp only [hmem, if_false]
    cases hp : probeFind t (pixelHash p % 8) (pixelHash p) 64 with
    | some j => exact Or.inr (Or.inl ⟨j, probeFind_sound t 64 _ _ j hp, rfl⟩)
    | none =>
      cases hf : firstEmpty t with
      | some j => exact Or.inr (Or.inl ⟨j, firstEmpty_sound t j hf, rfl⟩)
      | none => exact Or.inr (Or.inr ⟨rfl, rfl⟩)

theorem occ_set_none : ∀ (t : SetTable) (j : Nat) (p : Pixel),
    t.getD j (some transparent) = none → occ (t.set j (some p)) = occ t + 1
  | [], j, p, h => absurd (getD_none_lt [] j h) (by simp)
  | none :: t, 0, p, h => by simp [occ, List.filterMap_cons]
  | some q :: t, 0, p, h => by cases h
  | none :: t, j + 1, p, h => by
    simp only [List.set, occ, List.filterMap_cons, id]
    exact occ_set_none t j p (by simpa [List.getD] using h)
  | some q :: t, j + 1, p, h => by
    simp only [List.set, occ, List.filterMap_cons, id, List.length_cons]
    rw [← occ, ← occ, occ_set_none t j p (by simpa [List.getD] using h)]

theorem length_setInsert (t : SetTable) (p : Pixel) :
    (setInsert t p).length = t.length := by
  rcases setInsert_spec t p with ⟨_, he⟩ | ⟨j, _, he⟩ | ⟨_, he⟩ <;>
    simp [he]

theorem occ_setInsert (t : SetTable) (p : Pixel) :
    occ (setInsert t p) ≤ occ t + 1 := by
  rcases setInsert_spec t p with ⟨_, he⟩ | ⟨j, hj, he⟩ | ⟨_, he⟩
  · rw [he]; omega
  · rw [he, occ_set_none t j p hj]
  · rw [he]; omega

theorem mem_setInsert_self (t : SetTable) (p : Pixel) (hocc : occ t < t.length) :
    some p ∈ setInsert t p := by
  rcases setInsert_spec t p with ⟨hm, he⟩ | ⟨j, hj, he⟩ | ⟨hf, _⟩
  · rw [he]; exact hm
  · rw [he]; exact mem_set_self t j (some p) (getD_none_lt t j hj)
  · exact absurd (firstEmpty_none_full t hf) (Nat.ne_of_lt hocc)

theorem mem_setInsert_mono (t : SetTable) (p q : Pixel) (hq : some q ∈ t) :
    some q ∈ setInsert t p := by
  rcases setInsert_spec t p with ⟨_, he⟩ | ⟨j, hj, he⟩ | ⟨_, he⟩
  · rw [he]; exact hq
  · rw [he]; exact mem_set_none_slot t j (some p) q hq hj
  · rw [he]; exact hq

theorem mem_setInsert_elim (t : SetTable) (p q : Pixel)
    (h : some q ∈ setInsert t p) : q = p ∨ some q ∈ t := by
  rcases setInsert_spec t p with ⟨_, he⟩ | ⟨j, _, he⟩ | ⟨_, he⟩
  · rw [he] at h; exact Or.inr h
  · rw [he] at h
    rcases List.mem_or_eq_of_mem_set h with hm | he2
    · exact Or.inr hm
    · exact Or.inl (Option.some.inj he2)
  · rw [he] at h; exact Or.inr h

theorem foldl_setInsert_mono : ∀ (cs : List Pixel) (t : SetTable) (q : Pixel),
    some q ∈ t → some q ∈ cs.foldl setInsert t
  | [], _, _, h => h
  | c :: cs, t, q, h =>
    foldl_setInsert_mono cs _ q (mem_setInsert_mono t c q h)

theorem foldl_setInsert_length : ∀ (cs : List Pixel) (t : SetTable),
    (cs.foldl setInsert t).length = t.length
  | [], t => rfl
  | c :: cs, t => by
    rw [List.foldl_cons, foldl_setInsert_length cs _, length_setInsert]

theorem foldl_setInsert_complete : ∀ (cs : List Pixel) (t : SetTable),
    occ t + cs.length ≤ t.length → ∀ q ∈ cs, some q ∈ cs.foldl setInsert t
  | [], t, _, q, hq => absurd hq (by simp)
  | c :: cs, t, hle, q, hq => by
    rcases List.mem_cons.1 hq with rfl | hmem
    · refine foldl_setInsert_mono cs _ q (mem_setInsert_self t q ?_)
      simp only [List.length_cons] at hle
      omega
    · refine foldl_setInsert_complete cs (setInsert t c) ?_ q hmem
      have h1 := occ_setInsert t c
      have h2 := length_setInsert t c
      simp only [List.length_cons] at hle
      omega

theorem foldl_setInsert_elim : ∀ (cs : List Pixel) (t : SetTable) (q : Pixel),
    some q ∈ cs.foldl setInsert t → some q ∈ t ∨ q ∈ cs
  | [], t, q, h => Or.inl h
  | c :: cs, t, q, h => by
    rcases foldl_setInsert_elim cs (setInsert t c) q h with hm | hm
    · rcases mem_setInsert_elim t c q hm with rfl | hm2
      · exact Or.inr (List.mem_cons_self _ _)
      · exact Or.inl hm2
    · exact Or.inr (List.mem_cons_of_mem _ hm)

theorem pySetList_subset (cs : List Pixel) (q : Pixel) (h : q ∈ pySetList cs) :
    q ∈ cs := by
  have hmem : some q ∈ cs.foldl setInsert emptyTable := by
    obtain ⟨o, ho, hoq⟩ := List.mem_filterMap.1 h
    cases o with
    | none => cases hoq
    | some p =>
      obtain rfl := Option.some.inj hoq
      exact ho
  rcases foldl_setInsert_elim cs emptyTable q hmem with h1 | h2
  · exact absurd h1 (by simp [emptyTable, List.mem_replicate])
  · exact h2

theorem pySetList_complete (cs : List Pixel) (hlen : cs.length ≤ 8)
    (q : Pixel) (hq : q ∈ cs) : q ∈ pySetList cs := by
  have h0 : occ emptyTable = 0 := by
    simp [occ, emptyTable, filterMap_replicate_none]
  have hle : occ emptyTable + cs.length ≤ emptyTable.length := by
    rw [h0]
    simpa [emptyTable] using hlen
  exact List.mem_filterMap.2
    ⟨some q, foldl_setInsert_complete cs emptyTable hle q hq, rfl⟩

theorem pyMax_foldl_spec (cs : List Pixel) (l : List Pixel) : ∀ b : Pixel,
    (l.foldl (fun best q => if countIn cs best < countIn cs q then q else best) b = b ∨
     l.foldl (fun best q => if countIn cs best < countIn cs q then q else best) b ∈ l) ∧
    countIn cs b ≤
      countIn cs (l.foldl (fun best q => if countIn cs best < countIn cs q then q else best) b) ∧
    ∀ q ∈ l, countIn cs q ≤
      countIn cs (l.foldl (fun best q => if countIn cs best < countIn cs q then q else best) b) := by
  induction l with
  | nil =>
    intro b
    exact ⟨Or.inl rfl, Nat.le_refl _, by simp⟩
  | cons c l ih =>
    intro b
    obtain ⟨hmem, hle, hall⟩ := ih (if countIn cs b < countIn cs c then c else b)
    have hb : countIn cs b ≤ countIn cs (if countIn cs b < countIn cs c then c else b) := by
      by_cases h : countIn cs b < countIn cs c
      · rw [if_pos h]; omega
      · rw [if_neg h]
    have hc : countIn cs c ≤ countIn cs (if countIn cs b < countIn cs c then c else b) := by
      by_cases h : countIn cs b < countIn cs c
      · rw [if_pos h]
      · rw [if_neg h]; omega
    rw [List.foldl_cons]
    refine ⟨?_, Nat.le_trans hb hle, ?_⟩
    · rcases hmem with h | h
      · rw [h]
        by_cases hcb : countIn cs b < countIn cs c
        · rw [if_pos hcb]; exact Or.inr (List.mem_cons_self _ _)
        · rw [if_neg hcb]; exact Or.inl rfl
      · exact Or.inr (List.mem_cons_of_mem _ h)
    · intro q hq
      rcases List.mem_cons.1 hq with rfl | h
      · exact Nat.le_trans hc hle
      · exact hall q h

/-- C3 (amended): the background colour is the RGB truncation of a corner
colour of maximal frequency among the four corner samples; when several
corner colours are tied for most frequent, the one chosen is the first in
CPython's hash-based set iteration order, which need not be the first
corner encountered. -/
theorem c3_most_frequent_corner (img : Img) :
    ∃ p, p ∈ corners img ∧ bgColor img = (p.r, p.g, p.b) ∧
      ∀ q ∈ corners img, countIn (corners img) q ≤ countIn (corners img) p := by
  have hlen : (corners img).length ≤ 8 := by simp [corners]
  have hmem0 : img.pix 0 0 ∈ pySetList (corners img) :=
    pySetList_complete _ hlen _ (by simp [corners])
  cases hset : pySetList (corners img) with
  | nil => rw [hset] at hmem0; cases hmem0
  | cons c rest =>
    refine ⟨pyMaxByCount (corners img) (c :: rest), ?_, ?_, ?_⟩
    · apply pySetList_subset (corners img)
      rw [hset]
      obtain ⟨hm, _, _⟩ := pyMax_foldl_spec (corners img) rest c
      rcases hm with h | h
      · show List.foldl _ c rest ∈ c :: rest
        rw [h]; exact List.mem_cons_self _ _
      · exact List.mem_cons_of_mem _ h
    · simp [bgColor, hset]
    · intro q hq
      have hq2 : q ∈ c :: rest := hset ▸ pySetList_complete _ hlen q hq
      obtain ⟨_, hle, hall⟩ := pyMax_foldl_spec (corners img) rest c
      rcases List.mem_cons.1 hq2 with rfl | h
      · exact hle
      · exact hall q h

/-- The 2×2 image whose corners are `[(0,0,0,255), (7,7,7,255),
(7,7,7,255), (0,0,0,255)]`: a 2–2 tie in which `(0,0,0,255)` is the
first corner colour encountered. -/
def c3Img : Img :=
  ⟨[[⟨0, 0, 0, 255⟩, ⟨7, 7, 7, 255⟩], [⟨7, 7, 7, 255⟩, ⟨0, 0, 0, 255⟩]]⟩

/-- C3 counterexample: on a 2–2 corner-colour tie the code does not pick
the first-seen corner colour.  The corners are `[(0,0,0,255), (7,7,7,255),
(7,7,7,255), (0,0,0,255)]`, both colours occur twice, first-seen is
`(0,0,0,255)`, yet `max(set(corners), key=corners.count)` yields
`(7,7,7,255)` because `(7,7,7,255)` lands in an earlier hash-table slot
of the CPython set (verified against CPython 3.11). -/
theorem c3_counterexample :
    corners c3Img = [⟨0, 0, 0, 255⟩, ⟨7, 7, 7, 255⟩, ⟨7, 7, 7, 255⟩, ⟨0, 0, 0, 255⟩] ∧
    countIn (corners c3Img) ⟨0, 0, 0, 255⟩ = countIn (corners c3Img) ⟨7, 7, 7, 255⟩ ∧
    bgColor c3Img = (7, 7, 7) ∧ bgColor c3Img ≠ (0, 0, 0) := by decide

/-! ### Center crop (C5) and readiness gate (C8) -/

/-- Modelled from the spec claim only (for comparison with `cropSize`):
`floor(min(width, height) * fraction)` at the claimed default
`fraction = 0.5`. -/
def cropSizeSpecDefault (w h : Nat) : Nat := min w h / 2

/-- C5 counterexample: on a 100×100 image the script crops a 45×45
centre square (`int(100 * 0.45)`), not the 50×50 square that the claimed
configurable fraction defaulting to 0.5 would give; the fraction is the
hard-coded constant 0.45. -/
theorem c5_counterexample :
    cropSize 100 100 = 45 ∧
    (centerCrop (blankImage 100 100 transparent)).width = 45 ∧
    cropSizeSpecDefault 100 100 = 50 ∧
    (centerCrop (blankImage 100 100 transparent)).width ≠ cropSizeSpecDefault 100 100 := by
  decide

/-- C5 (amended): for every sprite that is not a tile sprite, the
crop step computes `cropSize = floor(min(width, height) * 0.45)` with
the fraction hard-coded to 0.45 (not configurable, not 0.5), and crops
the centred square of that side: the result is `cropSize × cropSize`
and its pixel `(x, y)` is the input pixel at
`((width - cropSize)/2 + x, (height - cropSize)/2 + y)`. -/
theorem c5_center_crop :
    (∀ img : Img,
      (centerCrop img).height = cropSize img.width img.height ∧
      (centerCrop img).width = cropSize img.width img.height) ∧
    (∀ (img : Img) (x y : Nat),
      x < cropSize img.width img.height → y < cropSize img.width img.height →
      (centerCrop img).pix x y =
        img.pix ((img.width - cropSize img.width img.height) / 2 + x)
                ((img.height - cropSize img.width img.height) / 2 + y)) ∧
    (∀ (img : Img) (tw th : Nat) (sid : String),
      sid ≠ "block" →
      resize_image img tw th sid true =
        resizeNearest (remove_background (centerCrop img) 30) tw th) := by
  refine ⟨?_, ?_, ?_⟩
  · intro img
    constructor
    · simp only [centerCrop, cropImg]
      exact genImg_height _ _ _
    · rcases Nat.eq_zero_or_pos (cropSize img.width img.height) with h0 | hpos
      · simp only [centerCrop, cropImg]
        rw [h0]
        rfl
      · simp only [centerCrop, cropImg]
        exact genImg_width _ _ _ (by omega)
  · intro img x y hx hy
    simp only [centerCrop, cropImg]
    exact genImg_pix _ _ _ x y hx hy
  · intro img tw th sid hsid
    simp [resize_image, TILE_SPRITES, hsid]

/-- Concrete instance: a 10×10 image crops to the centred 4×4 square
(`int(10 * 0.45) = 4`), and a non-tile sprite id goes through
crop-then-background-removal. -/
theorem c5_center_crop_witness :
    0 < cropSize (blankImage 10 10 transparent).width (blankImage 10 10 transparent).height ∧
    (centerCrop (blankImage 10 10 transparent)).pix 0 0 =
      (blankImage 10 10 transparent).pix
        (((blankImage 10 10 transparent).width -
          cropSize (blankImage 10 10 transparent).width
            (blankImage 10 10 transparent).height) / 2 + 0)
        (((blankImage 10 10 transparent).height -
          cropSize (blankImage 10 10 transparent).width
            (blankImage 10 10 transparent).height) / 2 + 0) ∧
    "coin" ≠ "block" ∧
    resize_image (blankImage 10 10 transparent) 5 5 "coin" true =
      resizeNearest (remove_background (centerCrop (blankImage 10 10 transparent)) 30) 5 5 :=
  ⟨by decide,
   c5_center_crop.2.1 (blankImage 10 10 transparent) 0 0 (by decide) (by decide),
   by decide,
   c5_center_crop.2.2 (blankImage 10 10 transparent) 5 5 "coin" (by decide)⟩

/-- C8: the readiness gate returns false for an absent marker file, false
for a marker that cannot be parsed as JSON, false when the `production`
field is missing, false when it is falsy, true when it is truthy — in
particular, for a boolean `production` field the gate returns exactly
that boolean, so it is true only for `production: true`. -/
theorem c8_is_production_ready :
    is_production_ready .absent = false ∧
    is_production_ready .unparsable = false ∧
    (∀ kvs, dictGet kvs "production" = none →
      is_production_ready (.parsed kvs) = false) ∧
    (∀ kvs v, dictGet kvs "production" = some v → truthy v = false →
      is_production_ready (.parsed kvs) = false) ∧
    (∀ kvs v, dictGet kvs "production" = some v → truthy v = true →
      is_production_ready (.parsed kvs) = true) ∧
    (∀ kvs b, dictGet kvs "production" = some (.bool b) →
      is_production_ready (.parsed kvs) = b) := by
  refine ⟨rfl, rfl, ?_, ?_, ?_, ?_⟩
  · intro kvs h
    simp [is_production_ready, h]
  · intro kvs v h hv
    simp [is_production_ready, h, hv]
  · intro kvs v h hv
    simp [is_production_ready, h, hv]
  · intro kvs b h
    simp [is_production_ready, h, truthy]

/-- Concrete markers: `{"production": true}` is ready,
`{"production": false}` and `{}` are not. -/
theorem c8_is_production_ready_witness :
    dictGet [("production", JsonValue.bool true)] "production" = some (.bool true) ∧
    is_production_ready (.parsed [("production", JsonValue.bool true)]) = true ∧
    dictGet [("production", JsonValue.bool false)] "production" = some (.bool false) ∧
    is_production_ready (.parsed [("production", JsonValue.bool false)]) = false ∧
    dictGet ([] : List (String × JsonValue)) "production" = none ∧
    is_production_ready (.parsed []) = false :=
  ⟨rfl,
   c8_is_production_ready.2.2.2.2.2 [("production", JsonValue.bool true)] true rfl,
   rfl,
   c8_is_production_ready.2.2.2.2.2 [("production", JsonValue.bool false)] false rfl,
   rfl,
   c8_is_production_ready.2.2.1 [] rfl⟩

/-! ### Atlas assembler lemmas -/

theorem alphaCompositeAt_height (c t : Img) (dx dy : Nat) :
    (alphaCompositeAt c t dx dy).height = c.height := by
  simp only [alphaCompositeAt]
  exact genImg_height _ _ _

theorem alphaCompositeAt_width (c t : Img) (dx dy : Nat) :
    (alphaCompositeAt c t dx dy).width = c.width := by
  rcases Nat.eq_zero_or_pos c.height with h0 | hpos
  · have hr : c.rows = [] := List.length_eq_zero.1 h0
    simp [alphaCompositeAt, genImg, Img.width, Img.height, hr]
  · simp only [alphaCompositeAt]
    exact genImg_width _ _ _ (by omega)

theorem blankImage_height (w h : Nat) (p : Pixel) : (blankImage w h p).height = h := by
  simp [blankImage, Img.height]

theorem blankImage_width (w h : Nat) (p : Pixel) (hh : h ≠ 0) :
    (blankImage w h p).width = w := by
  cases h with
  | zero => exact absurd rfl hh
  | succ n => simp [blankImage, Img.width, List.replicate_succ]

theorem buildTilesLoop_nil (tiles : String → Option Img) (cell : Nat)
    (canvas : Img) (atlas : List (String × AtlasEntry)) :
    buildTilesLoop tiles cell [] canvas atlas = .ok (canvas, atlas) := rfl

theorem buildTilesLoop_cons_none (tiles : String → Option Img) (cell : Nat)
    (s : SpriteSpec) (rest : List SpriteSpec) (canvas : Img)
    (atlas : List (String × AtlasEntry)) (ht : tiles s.id = none) :
    buildTilesLoop tiles cell (s :: rest) canvas atlas =
      .error (.missingTile s.id) := by
  simp only [buildTilesLoop, ht]

theorem buildTilesLoop_cons_some (tiles : String → Option Img) (cell : Nat)
    (s : SpriteSpec) (rest : List SpriteSpec) (canvas : Img)
    (atlas : List (String × AtlasEntry)) (tile : Img)
    (ht : tiles s.id = some tile) :
    buildTilesLoop tiles cell (s :: rest) canvas atlas =
      if (tile.width, tile.height) = (s.w, s.h) then
        buildTilesLoop tiles cell rest
          (alphaCompositeAt canvas tile (s.col * cell) (s.row * cell))
          (dictInsert atlas s.id ⟨s.col * cell, s.row * cell, s.w, s.h⟩)
      else .error (.sizeMismatch s.id (s.w, s.h) (tile.width, tile.height)) := by
  simp only [buildTilesLoop, ht]

theorem buildTilesLoop_dims (tiles : String → Option Img) (cell : Nat) :
    ∀ (l : List SpriteSpec) (canvas : Img) (atlas : List (String × AtlasEntry))
      (img : Img) (a : List (String × AtlasEntry)),
      buildTilesLoop tiles cell l canvas atlas = .ok (img, a) →
      img.width = canvas.width ∧ img.height = canvas.height
  | [], canvas, atlas, img, a, h => by
    rw [buildTilesLoop_nil] at h
    simp only [Except.ok.injEq, Prod.mk.injEq] at h
    obtain ⟨rfl, rfl⟩ := h
    exact ⟨rfl, rfl⟩
  | s :: rest, canvas, atlas, img, a, h => by
    cases ht : tiles s.id with
    | none =>
      rw [buildTilesLoop_cons_none tiles cell s rest canvas atlas ht] at h
      cases h
    | some tile =>
      rw [buildTilesLoop_cons_some tiles cell s rest canvas atlas tile ht] at h
      by_cases hsz : (tile.width, tile.height) = (s.w, s.h)
      · rw [if_pos hsz] at h
        obtain ⟨h1, h2⟩ := buildTilesLoop_dims tiles cell rest _ _ img a h
        exact ⟨h1.trans (alphaCompositeAt_width _ _ _ _),
               h2.trans (alphaCompositeAt_height _ _ _ _)⟩
      · rw [if_neg hsz] at h
        cases h

theorem dictInsert_mem : ∀ (l : List (String × AtlasEntry)) (k : String)
    (v : AtlasEntry) (p : String × AtlasEntry),
    p ∈ dictInsert l k v → p = (k, v) ∨ p ∈ l
  | [], k, v, p, h => by
    simpa [dictInsert] using h
  | kv :: rest, k, v, p, h => by
    simp only [dictInsert] at h
    by_cases he : kv.1 = k
    · rw [if_pos he] at h
      rcases List.mem_cons.1 h with rfl | hm
      · exact Or.inl rfl
      · exact Or.inr (List.mem_cons_of_mem _ hm)
    · rw [if_neg he] at h
      rcases List.mem_cons.1 h with rfl | hm
      · exact Or.inr (List.mem_cons_self _ _)
      · rcases dictInsert_mem rest k v p hm with h1 | h2
        · exact Or.inl h1
        · exact Or.inr (List.mem_cons_of_mem _ h2)

theorem buildTilesLoop_atlas_shape (tiles : String → Option Img) (cell : Nat) :
    ∀ (l : List SpriteSpec) (canvas : Img) (atlas : List (String × AtlasEntry))
      (img : Img) (a : List (String × AtlasEntry)),
      buildTilesLoop tiles cell l canvas atlas = .ok (img, a) →
      ∀ p ∈ a, p ∈ atlas ∨
        ∃ s ∈ l, p = (s.id, ⟨s.col * cell, s.row * cell, s.w, s.h⟩)
  | [], canvas, atlas, img, a, h, p, hp => by
    rw [buildTilesLoop_nil] at h
    simp only [Except.ok.injEq, Prod.mk.injEq] at h
    obtain ⟨rfl, rfl⟩ := h
    exact Or.inl hp
  | s :: rest, canvas, atlas, img, a, h, p, hp => by
    cases ht : tiles s.id with
    | none =>
      rw [buildTilesLoop_cons_none tiles cell s rest canvas atlas ht] at h
      cases h
    | some tile =>
      rw [buildTilesLoop_cons_some tiles cell s rest canvas atlas tile ht] at h
      by_cases hsz : (tile.width, tile.height) = (s.w, s.h)
      · rw [if_pos hsz] at h
        rcases buildTilesLoop_atlas_shape tiles cell rest _ _ img a h p hp with
          hm | ⟨q, hq, hpq⟩
        · rcases dictInsert_mem atlas s.id _ p hm with h1 | h2
          · exact Or.inr ⟨s, List.mem_cons_self _ _, h1⟩
          · exact Or.inl h2
        · exact Or.inr ⟨q, List.mem_cons_of_mem _ hq, hpq⟩
      · rw [if_neg hsz] at h
        cases h

theorem buildTilesLoop_missing (tiles : String → Option Img) (cell : Nat) :
    ∀ (l : List SpriteSpec),
      (∃ s ∈ l, tiles s.id = none) →
      (∀ s ∈ l, ∀ t, tiles s.id = some t → t.width = s.w ∧ t.height = s.h) →
      ∀ (canvas : Img) (atlas : List (String × AtlasEntry)),
      ∃ sid, buildTilesLoop tiles cell l canvas atlas = .error (.missingTile sid)
  | [], hmiss, _, canvas, atlas => absurd hmiss (by simp)
  | s :: rest, hmiss, hsz, canvas, atlas => by
    cases ht : tiles s.id with
    | none =>
      exact ⟨s.id, buildTilesLoop_cons_none tiles cell s rest canvas atlas ht⟩
    | some tile =>
      have hrest : ∃ q ∈ rest, tiles q.id = none := by
        obtain ⟨q, hq, hqn⟩ := hmiss
        rcases List.mem_cons.1 hq with rfl | hq2
        · rw [ht] at hqn; cases hqn
        · exact ⟨q, hq2, hqn⟩
      obtain ⟨hw, hh⟩ := hsz s (List.mem_cons_self _ _) tile ht
      obtain ⟨sid, hres⟩ := buildTilesLoop_missing tiles cell rest hrest
        (fun q hq => hsz q (List.mem_cons_of_mem _ hq))
        (alphaCompositeAt canvas tile (s.col * cell) (s.row * cell))
        (dictInsert atlas s.id ⟨s.col * cell, s.row * cell, s.w, s.h⟩)
      refine ⟨sid, ?_⟩
      rw [buildTilesLoop_cons_some tiles cell s rest canvas atlas tile ht,
        if_pos (by rw [hw, hh])]
      exact hres

theorem buildTilesLoop_index_indep (t1 t2 : String → Option Img) (cell : Nat) :
    ∀ (l : List SpriteSpec),
      (∀ s ∈ l, ∃ i1, t1 s.id = some i1 ∧ i1.width = s.w ∧ i1.height = s.h) →
      (∀ s ∈ l, ∃ i2, t2 s.id = some i2 ∧ i2.width = s.w ∧ i2.height = s.h) →
      ∀ (c1 c2 : Img) (atlas : List (String × AtlasEntry)),
      ∃ (o1 o2 : Img) (a : List (String × AtlasEntry)),
        buildTilesLoop t1 cell l c1 atlas = .ok (o1, a) ∧
        buildTilesLoop t2 cell l c2 atlas = .ok (o2, a)
  | [], _, _, c1, c2, atlas => ⟨c1, c2, atlas, rfl, rfl⟩
  | s :: rest, h1, h2, c1, c2, atlas => by
    obtain ⟨i1, hi1, hw1, hh1⟩ := h1 s (List.mem_cons_self _ _)
    obtain ⟨i2, hi2, hw2, hh2⟩ := h2 s (List.mem_cons_self _ _)
    obtain ⟨o1, o2, a, ha, hb⟩ := buildTilesLoop_index_indep t1 t2 cell rest
      (fun q hq => h1 q (List.mem_cons_of_mem _ hq))
      (fun q hq => h2 q (List.mem_cons_of_mem _ hq))
      (alphaCompositeAt c1 i1 (s.col * cell) (s.row * cell))
      (alphaCompositeAt c2 i2 (s.col * cell) (s.row * cell))
      (dictInsert atlas s.id ⟨s.col * cell, s.row * cell, s.w, s.h⟩)
    refine ⟨o1, o2, a, ?_, ?_⟩
    · rw [buildTilesLoop_cons_some t1 cell s rest c1 atlas i1 hi1,
        if_pos (by rw [hw1, hh1])]
      exact ha
    · rw [buildTilesLoop_cons_some t2 cell s rest c2 atlas i2 hi2,
        if_pos (by rw [hw2, hh2])]
      exact hb

/-! ### Claim theorems for the assembler -/

/-- The example manifest
`{sheet:{width:1024,height:1024,scale:2,cell:128}, sprites:[{id:"coin",row:0,col:0,w:32,h:32}]}`. -/
def exampleManifest : Manifest :=
  ⟨⟨1024, 1024, 2, 128⟩, [⟨"coin", 0, 0, 32, 32⟩]⟩

/-- A minimal 1×1 manifest used for concrete instantiations. -/
def tinyManifest : Manifest := ⟨⟨1, 1, 1, 1⟩, [⟨"coin", 0, 0, 1, 1⟩]⟩

/-- C1: on the example manifest in tile mode with any 32×32 `coin` tile,
assembly succeeds with index `{"coin": {x:0, y:0, w:32, h:32}}` and a
512×512 output image; in general every emitted index entry of a
successful tile-mode build is `x = col*cell/scale`, `y = row*cell/scale`
with `w, h` copied from the sprite spec (for manifests satisfying the
`scale ∣ cell` invariant; the script computes `col * (cell // scale)`,
which then equals `col*cell/scale`). -/
theorem c1_tile_mode_example_and_formula :
    (∀ tile : Img, tile.width = 32 → tile.height = 32 →
      ∃ img : Img,
        buildAtlasFromTiles (fun sid => if sid = "coin" then some tile else none)
          exampleManifest = .ok (img, [("coin", ⟨0, 0, 32, 32⟩)]) ∧
        img.width = 512 ∧ img.height = 512) ∧
    (∀ (m : Manifest) (tiles : String → Option Img) (img : Img)
       (atlas : List (String × AtlasEntry)),
      m.sheet.scale ∣ m.sheet.cell →
      buildAtlasFromTiles tiles m = .ok (img, atlas) →
      ∀ p ∈ atlas, ∃ s ∈ m.sprites,
        p = (s.id, ⟨s.col * m.sheet.cell / m.sheet.scale,
                    s.row * m.sheet.cell / m.sheet.scale, s.w, s.h⟩)) := by
  constructor
  · intro tile hw hh
    refine ⟨alphaCompositeAt (blankImage 512 512 transparent) tile 0 0, ?_, ?_, ?_⟩
    · show buildTilesLoop (fun sid => if sid = "coin" then some tile else none) 64
        [⟨"coin", 0, 0, 32, 32⟩] (blankImage 512 512 transparent) [] =
        .ok (alphaCompositeAt (blankImage 512 512 transparent) tile 0 0,
          [("coin", ⟨0, 0, 32, 32⟩)])
      rw [buildTilesLoop_cons_some _ 64 _ [] _ [] tile (by simp),
        if_pos (by rw [hw, hh]), buildTilesLoop_nil]
      rfl
    · rw [alphaCompositeAt_width, blankImage_width 512 512 transparent (by omega)]
    · rw [alphaCompositeAt_height, blankImage_height]
  · intro m tiles img atlas hdvd hok p hp
    have hshape := buildTilesLoop_atlas_shape tiles (m.sheet.cell / m.sheet.scale)
      m.sprites
      (blankImage (m.sheet.width / m.sheet.scale) (m.sheet.height / m.sheet.scale)
        transparent)
      [] img atlas hok p hp
    rcases hshape with hm | ⟨s, hs, hps⟩
    · exact absurd hm (List.not_mem_nil p)
    · refine ⟨s, hs, ?_⟩
      rw [hps, Nat.mul_div_assoc s.col hdvd, Nat.mul_div_assoc s.row hdvd]

/-- Concrete instances: a 32×32 tile for the example manifest, and the
1×1 manifest whose successful build has the index entry given by the
formula. -/
theorem c1_tile_mode_example_and_formula_witness :
    ((blankImage 32 32 transparent).width = 32 ∧
     (blankImage 32 32 transparent).height = 32 ∧
     tinyManifest.sheet.scale ∣ tinyManifest.sheet.cell ∧
     buildAtlasFromTiles (fun _ => some (blankImage 1 1 transparent)) tinyManifest =
       .ok (⟨[[transparent]]⟩, [("coin", ⟨0, 0, 1, 1⟩)])) ∧
    (∃ img : Img,
      buildAtlasFromTiles
        (fun sid => if sid = "coin" then some (blankImage 32 32 transparent) else none)
        exampleManifest = .ok (img, [("coin", ⟨0, 0, 32, 32⟩)]) ∧
      img.width = 512 ∧ img.height = 512) ∧
    (∀ p ∈ [("coin", (⟨0, 0, 1, 1⟩ : AtlasEntry))], ∃ s ∈ tinyManifest.sprites,
      p = (s.id, ⟨s.col * tinyManifest.sheet.cell / tinyManifest.sheet.scale,
                  s.row * tinyManifest.sheet.cell / tinyManifest.sheet.scale,
                  s.w, s.h⟩)) :=
  ⟨⟨by decide, by decide, by decide, rfl⟩,
   c1_tile_mode_example_and_formula.1 (blankImage 32 32 transparent)
     (by decide) (by decide),
   c1_tile_mode_example_and_formula.2 tinyManifest
     (fun _ => some (blankImage 1 1 transparent)) ⟨[[transparent]]⟩
     [("coin", ⟨0, 0, 1, 1⟩)] (by decide) rfl⟩

/-- C6: in tile mode, when some manifest sprite has no tile file (and
every tile that does exist has its declared size, so the loop cannot
fail earlier for a different reason), the build fails with the missing
tile error and performs no filesystem write — no atlas image, no index
and no readiness marker, regardless of `--mark-production`. -/
theorem c6_missing_tile_aborts_without_writes (tiles : String → Option Img)
    (m : Manifest) (markProduction : Bool) (source : String)
    (hmiss : ∃ s ∈ m.sprites, tiles s.id = none)
    (hsz : ∀ s ∈ m.sprites, ∀ t, tiles s.id = some t →
      t.width = s.w ∧ t.height = s.h) :
    (∃ sid, buildAtlasFromTilesWrites tiles m markProduction source =
      .error (.missingTile sid)) ∧
    ∀ writes : List WriteOp,
      buildAtlasFromTilesWrites tiles m markProduction source ≠ .ok writes := by
  obtain ⟨sid, hres⟩ := buildTilesLoop_missing tiles (m.sheet.cell / m.sheet.scale)
    m.sprites hmiss hsz
    (blankImage (m.sheet.width / m.sheet.scale) (m.sheet.height / m.sheet.scale)
      transparent) []
  have hmain : buildAtlasFromTiles tiles m = .error (.missingTile sid) := hres
  constructor
  · exact ⟨sid, by simp [buildAtlasFromTilesWrites, hmain]⟩
  · intro wr hw
    simp [buildAtlasFromTilesWrites, hmain] at hw

/-- The empty tile directory on the 1×1 manifest: assembly fails with
the missing tile error and succeeds with no write list. -/
theorem c6_missing_tile_aborts_without_writes_witness :
    (∃ s ∈ tinyManifest.sprites,
      (fun _ : String => (none : Option Img)) s.id = none) ∧
    (∃ sid, buildAtlasFromTilesWrites (fun _ => none) tinyManifest true "tiles" =
      .error (.missingTile sid)) ∧
    ∀ writes : List WriteOp,
      buildAtlasFromTilesWrites (fun _ => none) tinyManifest true "tiles" ≠
        .ok writes :=
  ⟨⟨⟨"coin", 0, 0, 1, 1⟩, by decide, rfl⟩,
   c6_missing_tile_aborts_without_writes (fun _ => none) tinyManifest true "tiles"
     ⟨⟨"coin", 0, 0, 1, 1⟩, by decide, rfl⟩
     (fun s hs t ht => Option.noConfusion ht)⟩

/-- C7: sheet-mode assembly checks that the sheet image measures exactly
`sheet.width × sheet.height` and fails with the dimension mismatch error
(reporting expected and actual sizes, with no scaling tolerance)
whenever it does not, writing nothing. -/
theorem c7_sheet_dimension_mismatch (sheetImg : Img) (m : Manifest)
    (markProduction : Bool) (source : String)
    (hne : (sheetImg.width, sheetImg.height) ≠ (m.sheet.width, m.sheet.height)) :
    buildAtlasFromSheetWrites sheetImg m markProduction source =
      .error (.dimensionMismatch (m.sheet.width, m.sheet.height)
        (sheetImg.width, sheetImg.height)) ∧
    ∀ writes : List WriteOp,
      buildAtlasFromSheetWrites sheetImg m markProduction source ≠ .ok writes := by
  have hmain : buildAtlasFromSheet sheetImg m =
      .error (.dimensionMismatch (m.sheet.width, m.sheet.height)
        (sheetImg.width, sheetImg.height)) := by
    simp only [buildAtlasFromSheet]
    rw [if_neg hne]
  constructor
  · simp [buildAtlasFromSheetWrites, hmain]
  · intro wr hw
    simp [buildAtlasFromSheetWrites, hmain] at hw

/-- A 2×2 sheet against the 1×1 manifest is rejected. -/
theorem c7_sheet_dimension_mismatch_witness :
    ((blankImage 2 2 transparent).width, (blankImage 2 2 transparent).height) ≠
      (tinyManifest.sheet.width, tinyManifest.sheet.height) ∧
    buildAtlasFromSheetWrites (blankImage 2 2 transparent) tinyManifest false "sheet" =
      .error (.dimensionMismatch (tinyManifest.sheet.width, tinyManifest.sheet.height)
        ((blankImage 2 2 transparent).width, (blankImage 2 2 transparent).height)) :=
  ⟨by decide,
   (c7_sheet_dimension_mismatch (blankImage 2 2 transparent) tinyManifest
     false "sheet" (by decide)).1⟩

/-- C9: in tile mode the emitted atlas index depends only on the
manifest: two runs over the same manifest whose tile stores both provide
a tile of the declared size for every sprite — with arbitrary, possibly
different pixel contents — both succeed and produce identical atlas
indexes. -/
theorem c9_index_depends_only_on_manifest (m : Manifest)
    (t1 t2 : String → Option Img)
    (h1 : ∀ s ∈ m.sprites, ∃ i1, t1 s.id = some i1 ∧
      i1.width = s.w ∧ i1.height = s.h)
    (h2 : ∀ s ∈ m.sprites, ∃ i2, t2 s.id = some i2 ∧
      i2.width = s.w ∧ i2.height = s.h) :
    ∃ (o1 o2 : Img) (a : List (String × AtlasEntry)),
      buildAtlasFromTiles t1 m = .ok (o1, a) ∧
      buildAtlasFromTiles t2 m = .ok (o2, a) := by
  obtain ⟨o1, o2, a, ha, hb⟩ := buildTilesLoop_index_indep t1 t2
    (m.sheet.cell / m.sheet.scale) m.sprites h1 h2
    (blankImage (m.sheet.width / m.sheet.scale) (m.sheet.height / m.sheet.scale)
      transparent)
    (blankImage (m.sheet.width / m.sheet.scale) (m.sheet.height / m.sheet.scale)
      transparent) []
  exact ⟨o1, o2, a, ha, hb⟩

/-- Two complete, well-sized tile stores with different pixel contents
on the 1×1 manifest yield the same index. -/
theorem c9_index_depends_only_on_manifest_witness :
    ∃ (o1 o2 : Img) (a : List (String × AtlasEntry)),
      buildAtlasFromTiles (fun _ => some ⟨[[⟨1, 2, 3, 255⟩]]⟩) tinyManifest =
        .ok (o1, a) ∧
      buildAtlasFromTiles (fun _ => some ⟨[[⟨9, 9, 9, 255⟩]]⟩) tinyManifest =
        .ok (o2, a) :=
  c9_index_depends_only_on_manifest tinyManifest
    (fun _ => some ⟨[[⟨1, 2, 3, 255⟩]]⟩) (fun _ => some ⟨[[⟨9, 9, 9, 255⟩]]⟩)
    (by
      intro s hs
      simp only [tinyManifest, List.mem_singleton] at hs
      subst hs
      exact ⟨⟨[[⟨1, 2, 3, 255⟩]]⟩, rfl, rfl, rfl⟩)
    (by
      intro s hs
      simp only [tinyManifest, List.mem_singleton] at hs
      subst hs
      exact ⟨⟨[[⟨9, 9, 9, 255⟩]]⟩, rfl, rfl, rfl⟩)
